import Mathlib

/-!
Verification development for the fivetwo project tracker.

The data model follows the SQL schema in migrations (cards, comments,
cards_audit, card_references, with the version triggers of migration
005_add_card_version.sql), and the operations follow the route handlers of
src/server.ts (PATCH /cards/:id, GET /cards, GET /cards/:id/comments,
POST /cards/:id/comments, DELETE /comments/:id).  Machine integers are
modelled as Nat/Int; timestamps as Nat ticks (db.now is the value of
CURRENT_TIMESTAMP for the running request).  Row ids are PRIMARY KEYs, so a
lookup or UPDATE by id touches the unique matching row; the embedding
represents this as acting on the first matching row of the table list.
-/

namespace FiveTwo

/-- Card row (cards table: 001_create_projects.sql second part, plus the
version column of 005_add_card_version.sql).  The unclaimed columns
card_number and type are omitted. -/
structure Card where
  id : Nat
  project_id : Nat
  title : String
  description : Option String
  status : String
  priority : Int
  created_by : Nat
  created_at : Nat
  updated_at : Nat
  version : Nat
deriving Repr, DecidableEq

/-- Comment row (comments table). -/
structure Comment where
  id : Nat
  card_id : Nat
  message : String
  created_by : Nat
  created_at : Nat
  status : String
deriving Repr, DecidableEq

/-- Audit row (cards_audit table). -/
structure CardAudit where
  card_id : Nat
  old_status : String
  new_status : String
  old_title : String
  new_title : String
  old_description : Option String
  new_description : Option String
  old_priority : Int
  new_priority : Int
  changed_by : Nat
deriving Repr, DecidableEq

/-- Card reference row (card_references table of
008_simplify_projects.sql second part). -/
structure CardReference where
  id : Nat
  source_card_id : Nat
  target_card_id : Nat
  reference_type : String
  created_at : Nat
deriving Repr, DecidableEq

/-- Store state: the four claim-relevant tables plus the request timestamp. -/
structure Db where
  cards : List Card
  comments : List Comment
  cards_audit : List CardAudit
  card_references : List CardReference
  now : Nat
deriving Repr, DecidableEq

/-- Domain errors of the error-handling taxonomy (spec section 7); the HTTP
layer renders NotFound as 404, InvalidArgument as 400, AlreadyExists as 400
and VersionConflict as 409 with the current version.  StoreError is a
store-level constraint violation that the handler does not catch (the
statement throws, nothing is written, and the HTTP layer answers 500). -/
inductive ApiError where
  | NotFound : ApiError
  | InvalidArgument : String → ApiError
  | AlreadyExists : ApiError
  | VersionConflict : Nat → ApiError
  | StoreError : ApiError
deriving Repr, DecidableEq

/-- Closed status vocabulary (validStatuses in server.ts). -/
def validStatuses : List String :=
  ["backlog", "in_progress", "review", "blocked", "done", "wont_do", "invalid"]

/-- Closed reference-type vocabulary (CHECK constraint of card_references). -/
def validReferenceTypes : List String :=
  ["blocks", "blocked_by", "relates_to", "duplicates", "duplicated_by",
   "parent_of", "child_of", "follows", "precedes", "clones", "cloned_by"]

/-- Update payload of PATCH /cards/:id.  A field is absent (none) when the
JSON key is missing; description distinguishes an explicit JSON null
(some none) from a supplied string (some (some s)).  The version field is
the optimistic-concurrency callerVersion; Modelled from the spec: the
version-checking revision of the PATCH handler is not among the provided
sources (only its tests and the README document it). -/
structure PatchBody where
  title : Option String
  description : Option (Option String)
  status : Option String
  priority : Option Int
  version : Option Nat
deriving Repr, DecidableEq

/-- Row lookup by primary key (SELECT * FROM cards WHERE id = ?). -/
def findCard (db : Db) (cardId : Nat) : Option Card :=
  db.cards.find? (fun c => c.id == cardId)

/-- Apply f to the first row satisfying p (UPDATE by unique key). -/
def updateFirst (p : α → Bool) (f : α → α) : List α → List α
  | [] => []
  | x :: xs => if p x then f x :: xs else x :: updateFirst p f xs

/-- Remove the first row satisfying p (DELETE by unique key). -/
def removeFirst (p : α → Bool) : List α → List α
  | [] => []
  | x :: xs => if p x then xs else x :: removeFirst p xs

/-- Version bump performed by the triggers of 005_add_card_version.sql:
UPDATE cards SET version = version + 1 WHERE id = ?. -/
def bumpCardVersion (db : Db) (cardId : Nat) : Db :=
  let newCards := updateFirst (fun c => c.id == cardId)
    (fun c => { c with version := c.version + 1 }) db.cards
  { db with cards := newCards }

/-- Status validation of the PATCH handler: it rejects only a truthy status
outside validStatuses (an empty string is falsy in JS and passes). -/
def statusOkB (body : PatchBody) : Bool :=
  match body.status with
  | some s => s == "" || validStatuses.contains s
  | none => true

/-- Priority validation of the PATCH handler: rejects priority < 0 or > 100. -/
def prioOkB (body : PatchBody) : Bool :=
  match body.priority with
  | some p => !(p < 0 || 100 < p : Bool)
  | none => true

/-- The handler requires at least one recognized field in the patch. -/
def hasFieldsB (body : PatchBody) : Bool :=
  body.title.isSome || body.description.isSome || body.status.isSome || body.priority.isSome

/-- Optimistic-concurrency check.  Modelled from the spec: if callerVersion
is supplied it must equal the stored version; if omitted the update
proceeds unconditionally. -/
def versionOkB (body : PatchBody) (existing : Card) : Bool :=
  match body.version with
  | some v => v == existing.version
  | none => true

/-- The UPDATE statement built by the PATCH handler: only supplied fields
are set (an explicit null clears description), and updated_at is always
touched with CURRENT_TIMESTAMP. -/
def applyPatch (old : Card) (body : PatchBody) (now : Nat) : Card :=
  { old with
    title := body.title.getD old.title
    description := match body.description with
      | some d => d
      | none => old.description
    status := body.status.getD old.status
    priority := body.priority.getD old.priority
    updated_at := now }

/-- Row CHECK constraints of the cards table (001_create_projects.sql):
status must be in the closed enum and priority between 0 and 100.  SQLite
evaluates them on the NEW row of every UPDATE; a violating row makes the
statement throw with nothing written.  This matters because the handler
validation is JS-truthy: a status supplied as the empty string passes
statusOkB yet fails this CHECK. -/
def rowCheckOkB (c : Card) : Bool :=
  validStatuses.contains c.status && decide (0 ≤ c.priority) && decide (c.priority ≤ 100)

/-- WHEN clause of trigger increment_card_version_on_update: the row
actually changed in title, description, status or priority. -/
def cardChanged (old nw : Card) : Bool :=
  (old.title != nw.title) || (old.description != nw.description) ||
  (old.status != nw.status) || (old.priority != nw.priority)

/-- Net effect of the card UPDATE on the targeted row: the patched row,
with the version bumped by the trigger when the row actually changed. -/
def patchedRow (now : Nat) (body : PatchBody) (old : Card) : Card :=
  let nw := applyPatch old body now
  if cardChanged old nw then { nw with version := nw.version + 1 } else nw

/-- Effect of a successfully executed card UPDATE (server.ts line 339)
together with its version trigger, one statement transaction.  updateCard
runs it only when the NEW row passes the cards schema CHECK
(rowCheckOkB); a violating row makes the statement throw before any
write, which updateCard models as a StoreError with the store untouched. -/
def applyCardUpdate (db : Db) (cardId : Nat) (body : PatchBody) : Db :=
  let newCards := updateFirst (fun c => c.id == cardId) (patchedRow db.now body) db.cards
  { db with cards := newCards }

/-- JS nullish coalescing (the expression body.description ?? existing)
used by the audit INSERT: both a missing key and an explicit null fall
back to the stored value. -/
def jsCoalesceDesc : Option (Option String) → Option String → Option String
  | some (some s), _ => some s
  | some none, old => old
  | none, old => old

/-- Audit row built by the PATCH handler (server.ts lines 345-360): old
values from the row read before the update, new values via nullish
coalescing of the patch over the old row. -/
def auditRow (cardId : Nat) (existing : Card) (body : PatchBody) (userId : Nat) : CardAudit :=
  { card_id := cardId
    old_status := existing.status
    new_status := body.status.getD existing.status
    old_title := existing.title
    new_title := body.title.getD existing.title
    old_description := existing.description
    new_description := jsCoalesceDesc body.description existing.description
    old_priority := existing.priority
    new_priority := body.priority.getD existing.priority
    changed_by := userId }

/-- Second store write of the PATCH handler (server.ts line 345): the audit
INSERT, a separate statement transaction from applyCardUpdate. -/
def insertAudit (db : Db) (a : CardAudit) : Db :=
  { db with cards_audit := db.cards_audit ++ [a] }

/-- PATCH /cards/:id (server.ts lines 273-367).  Validation order follows
the handler: NotFound, status, priority, empty patch; the optimistic
version check (Modelled from the spec where the handler revision with
version support is not among the provided sources) runs after validation
and before any write, failing VersionConflict with the current version.
The card UPDATE then enforces the cards schema CHECK on the NEW row: a
violating row (for example a status supplied as the empty string, which
the JS-truthy validation lets through) makes the statement throw with
nothing written, surfacing as an uncaught StoreError.  On success the
card UPDATE and the audit INSERT run as the two separate statements of
the source, then the refreshed row is returned. -/
def updateCard (db : Db) (cardId : Nat) (body : PatchBody) (userId : Nat) :
    Db × Except ApiError Card :=
  match findCard db cardId with
  | none => (db, .error .NotFound)
  | some existing =>
    if !statusOkB body then (db, .error (.InvalidArgument "Invalid status"))
    else if !prioOkB body then (db, .error (.InvalidArgument "Priority must be between 0 and 100"))
    else if !hasFieldsB body then (db, .error (.InvalidArgument "No fields to update"))
    else if !versionOkB body existing then (db, .error (.VersionConflict existing.version))
    else if !rowCheckOkB (applyPatch existing body db.now) then (db, .error .StoreError)
    else
      let db1 := applyCardUpdate db cardId body
      let db2 := insertAudit db1 (auditRow cardId existing body userId)
      (db2, .ok ((findCard db2 cardId).getD existing))

/-- Fresh primary key for an INSERT (SQLite rowid allocation). -/
def freshId (ids : List Nat) : Nat := ids.foldr Nat.max 0 + 1

/-- Store state with the comments table replaced. -/
def withComments (db : Db) (cs : List Comment) : Db := { db with comments := cs }

/-- Store state with the card_references table replaced. -/
def withRefs (db : Db) (rs : List CardReference) : Db := { db with card_references := rs }

/-- Row inserted by a successful addComment (status defaults to created,
created_at to CURRENT_TIMESTAMP). -/
def newComment (db : Db) (cardId : Nat) (message : String) (userId : Nat) : Comment :=
  { id := freshId (db.comments.map (fun c => c.id)), card_id := cardId,
    message := message, created_by := userId, created_at := db.now,
    status := "created" }

/-- POST /cards/:id/comments (server.ts lines 391-422) together with
trigger increment_card_version_on_comment_add. -/
def addComment (db : Db) (cardId : Nat) (message : String) (userId : Nat) :
    Db × Except ApiError Comment :=
  match findCard db cardId with
  | none => (db, .error .NotFound)
  | some _ =>
    if message == "" then (db, .error (.InvalidArgument "message is required"))
    else
      let cm := newComment db cardId message userId
      let db1 := withComments db (db.comments ++ [cm])
      (bumpCardVersion db1 cardId, .ok cm)

/-- DELETE /comments/:id (server.ts lines 425-443) together with trigger
increment_card_version_on_comment_delete, which fires because the updated
row transitions from a non-deleted status to deleted. -/
def deleteComment (db : Db) (commentId : Nat) : Db × Except ApiError Unit :=
  match db.comments.find? (fun c => c.id == commentId) with
  | none => (db, .error .NotFound)
  | some cm =>
    if cm.status == "deleted" then (db, .error (.InvalidArgument "Comment already deleted"))
    else
      let newComments := updateFirst (fun c => c.id == commentId)
        (fun c => { c with status := "deleted" }) db.comments
      let db1 := withComments db newComments
      (bumpCardVersion db1 cm.card_id, .ok ())

/-- Ordering of the comment listing: ORDER BY created_at ASC. -/
def commentLe (a b : Comment) : Prop := a.created_at ≤ b.created_at

instance : DecidableRel commentLe := fun a b => Nat.decLe a.created_at b.created_at

/-- GET /cards/:id/comments (server.ts lines 370-388): non-deleted comments
of the card, ordered by creation time ascending. -/
def listComments (db : Db) (cardId : Nat) : Except ApiError (List Comment) :=
  match findCard db cardId with
  | none => .error .NotFound
  | some _ =>
    .ok (List.insertionSort commentLe
      (db.comments.filter (fun cm => cm.card_id == cardId && cm.status != "deleted")))

/-- Predicate for the UNIQUE(source_card_id, target_card_id, reference_type)
duplicate test. -/
def sameTriple (s t : Nat) (ty : String) (r : CardReference) : Bool :=
  r.source_card_id == s && r.target_card_id == t && r.reference_type == ty

/-- Row inserted by a successful createReference. -/
def newReference (db : Db) (s t : Nat) (ty : String) : CardReference :=
  { id := freshId (db.card_references.map (fun r => r.id)),
    source_card_id := s, target_card_id := t,
    reference_type := ty, created_at := db.now }

/-- Success condition of createReference, bundled for the version lemmas. -/
def createRefOkB (db : Db) (s t : Nat) (ty : String) : Bool :=
  (findCard db s).isSome && (findCard db t).isSome && s != t &&
  validReferenceTypes.contains ty && !(db.card_references.any (sameTriple s t ty))

/-- Modelled from the spec: the POST /cards/:id/references handler is not
among the provided sources (only its tests, the README and the
card_references schema with its CHECK and UNIQUE constraints are).  Per
spec section 4.3 it fails NotFound if either card is absent, then
InvalidArgument on self-reference, then InvalidArgument on a type outside
the closed vocabulary, then AlreadyExists on a duplicate triple; on
success it inserts the edge and the trigger
increment_card_version_on_reference_add bumps the source card only. -/
def createReference (db : Db) (sourceId targetId : Nat) (refType : String) :
    Db × Except ApiError CardReference :=
  if (findCard db sourceId).isNone || (findCard db targetId).isNone then
    (db, .error .NotFound)
  else if sourceId == targetId then (db, .error (.InvalidArgument "self-reference"))
  else if !(validReferenceTypes.contains refType) then
    (db, .error (.InvalidArgument "Invalid reference type"))
  else if db.card_references.any (sameTriple sourceId targetId refType) then
    (db, .error .AlreadyExists)
  else
    let ref := newReference db sourceId targetId refType
    let db1 := withRefs db (db.card_references ++ [ref])
    (bumpCardVersion db1 sourceId, .ok ref)

/-- Modelled from the spec: the DELETE /cards/:id/references/:refId handler
is not among the provided sources.  Per spec section 4.3 it fails NotFound
if the reference does not exist or does not belong to the card; otherwise
it deletes the row and the trigger
increment_card_version_on_reference_delete bumps OLD.source_card_id. -/
def deleteReference (db : Db) (cardId refId : Nat) : Db × Except ApiError Unit :=
  match db.card_references.find? (fun r => r.id == refId && r.source_card_id == cardId) with
  | none => (db, .error .NotFound)
  | some r =>
    let newRefs :=
      removeFirst (fun x => x.id == refId && x.source_card_id == cardId) db.card_references
    let db1 := withRefs db newRefs
    (bumpCardVersion db1 r.source_card_id, .ok ())

/-- Query parameters of GET /cards, already URL-decoded and parsed. -/
structure ListParams where
  id : Option Nat
  status : Option String
  priority : Option Int
  project_id : Option Nat
  search : Option String
deriving Repr, DecidableEq

/-- JS truthiness of the search parameter: present and non-empty. -/
def searchPresent (p : ListParams) : Bool :=
  match p.search with
  | some s => s != ""
  | none => false

/-- Space tokenizer over the character list of a column text. -/
def splitTokensAux (sep : Char) : List Char → List Char → List (List Char)
  | [], acc => [acc.reverse]
  | c :: cs, acc =>
    if c = sep then acc.reverse :: splitTokensAux sep cs []
    else splitTokensAux sep cs (c :: acc)

/-- Occurrences of a term in a text, the store-side token statistic.  The
full-text engine is an external collaborator; only the matching interface
(a card matches when the term occurs in title or description) and the
ranking weights are the engine contract the code relies on. -/
def countOcc (term : String) (text : String) : Nat :=
  (splitTokensAux ' ' text.data []).count term.data

/-- Store-side raw score of the title column for a term. -/
def titleScore (term : String) (c : Card) : Nat := countOcc term c.title

/-- Store-side raw score of the description column for a term. -/
def descScore (term : String) (c : Card) : Nat :=
  countOcc term (c.description.getD "")

/-- WHERE cards_fts MATCH ?: the card has a hit in title or description. -/
def ftsMatches (term : String) (c : Card) : Bool :=
  decide (0 < titleScore term c + descScore term c)

/-- ORDER BY bm25(cards_fts, 10.0, 1.0) key (server.ts line 169): SQLite
bm25 returns the negated weighted sum of per-column scores (smaller is
better), with weight 10 on title and 1 on description. -/
def bm25key (term : String) (c : Card) : Int :=
  -(10 * (titleScore term c : Int) + 1 * (descScore term c : Int))

/-- Ascending order on the bm25 key. -/
def ftsLe (term : String) (a b : Card) : Prop := bm25key term a ≤ bm25key term b

instance (term : String) : DecidableRel (ftsLe term) :=
  fun a b => Int.decLe (bm25key term a) (bm25key term b)

/-- FTS branch of GET /cards (server.ts lines 162-171). -/
def ftsSearch (db : Db) (term : String) : List Card :=
  List.insertionSort (ftsLe term) (db.cards.filter (ftsMatches term))

/-- Filter predicate of the non-search branch: conditions are ANDed, and a
truthy-empty status string contributes no condition. -/
def passesFilters (p : ListParams) (c : Card) : Bool :=
  (match p.id with | some i => c.id == i | none => true) &&
  (match p.status with | some s => s == "" || c.status == s | none => true) &&
  (match p.priority with | some pr => c.priority == pr | none => true) &&
  (match p.project_id with | some pj => c.project_id == pj | none => true)

/-- ORDER BY priority DESC, created_at DESC of the filter branch. -/
def scanLe (a b : Card) : Prop :=
  b.priority < a.priority ∨ (a.priority = b.priority ∧ b.created_at ≤ a.created_at)

instance : DecidableRel scanLe := fun a b =>
  inferInstanceAs (Decidable (b.priority < a.priority ∨
    (a.priority = b.priority ∧ b.created_at ≤ a.created_at)))

/-- GET /cards (server.ts lines 153-205): a truthy search string selects
the FTS branch and every other filter is ignored there; otherwise the
ANDed exact-filter scan runs. -/
def listCards (db : Db) (p : ListParams) : List Card :=
  if searchPresent p then ftsSearch db (p.search.getD "") else filterScan db p
where
  filterScan (db : Db) (p : ListParams) : List Card :=
    List.insertionSort scanLe (db.cards.filter (passesFilters p))

/-- Card version as stored for a given id. -/
def versionOf (db : Db) (c : Nat) : Option Nat :=
  (findCard db c).map (fun x => x.version)

/-- One mutation request against the engine. -/
inductive Mutation where
  | patch : Nat → PatchBody → Nat → Mutation
  | addComment : Nat → String → Nat → Mutation
  | delComment : Nat → Mutation
  | addRef : Nat → Nat → String → Mutation
  | delRef : Nat → Nat → Mutation
deriving Repr, DecidableEq

/-- State reached after a mutation request (a failed request leaves the
store untouched, since every validation runs before any write). -/
def applyMutation (db : Db) : Mutation → Db
  | .patch cid body uid => (updateCard db cid body uid).1
  | .addComment cid msg uid => (FiveTwo.addComment db cid msg uid).1
  | .delComment mid => (deleteComment db mid).1
  | .addRef s t ty => (createReference db s t ty).1
  | .delRef cid rid => (deleteReference db cid rid).1

/-- Whether a mutation is a qualifying mutation for card c in state db, in
the sense of the version invariant: a successful update that actually
changes title, description, status or priority of c; a successful comment
insertion on c; a comment transition to deleted on c; a successful
reference insertion or deletion whose source is c. -/
def qualifiesFor (db : Db) (c : Nat) : Mutation → Bool
  | .patch cid body _ =>
    cid == c &&
    (match findCard db cid with
     | none => false
     | some old =>
       statusOkB body && prioOkB body && hasFieldsB body && versionOkB body old &&
       rowCheckOkB (applyPatch old body db.now) &&
       cardChanged old (applyPatch old body db.now))
  | .addComment cid msg _ => cid == c && (findCard db cid).isSome && msg != ""
  | .delComment mid =>
    (match db.comments.find? (fun x => x.id == mid) with
     | none => false
     | some cm => cm.status != "deleted" && cm.card_id == c)
  | .addRef s t ty => s == c && createRefOkB db s t ty
  | .delRef cid rid =>
    cid == c && (db.card_references.find? (fun r => r.id == rid && r.source_card_id == cid)).isSome

/-- State after a sequence of mutation requests. -/
def applyMutations (db : Db) : List Mutation → Db
  | [] => db
  | m :: ms => applyMutations (applyMutation db m) ms

/-- Number of qualifying mutations for card c along a request trajectory. -/
def countQualifying (db : Db) (c : Nat) : List Mutation → Nat
  | [] => 0
  | m :: ms => (if qualifiesFor db c m then 1 else 0) + countQualifying (applyMutation db m) c ms

/-- Reference-graph invariant of the card_references schema: no self edge,
and the (source, target, type) triple is unique. -/
def refsInvariant (db : Db) : Prop :=
  (∀ r ∈ db.card_references, r.source_card_id ≠ r.target_card_id) ∧
  (db.card_references.map
    (fun r => (r.source_card_id, r.target_card_id, r.reference_type))).Nodup

instance (db : Db) : Decidable (refsInvariant db) := by
  unfold refsInvariant
  infer_instance

/-- States reachable from db0 through the engine operations. -/
inductive Reachable (db0 : Db) : Db → Prop where
  | refl : Reachable db0 db0
  | step {db : Db} (m : Mutation) : Reachable db0 db → Reachable db0 (applyMutation db m)

/-- The patch supplies only values identical to the stored ones (each field
is either omitted or repeats the stored value). -/
def suppliesIdentical (old : Card) (body : PatchBody) : Prop :=
  (body.title = none ∨ body.title = some old.title) ∧
  (body.description = none ∨ body.description = some old.description) ∧
  (body.status = none ∨ body.status = some old.status) ∧
  (body.priority = none ∨ body.priority = some old.priority)

/-! Helper lemmas about the row-update primitives. -/

theorem find?_updateFirst_self (p : α → Bool) (f : α → α)
    (hpf : ∀ x, p x = true → p (f x) = true) (l : List α) :
    (updateFirst p f l).find? p = (l.find? p).map f := by
  induction l with
  | nil => rfl
  | cons x xs ih =>
    cases hx : p x with
    | true => simp [updateFirst, hx, List.find?_cons, hpf x hx]
    | false => simp [updateFirst, hx, List.find?_cons, ih]

theorem find?_updateFirst_ne (p q : α → Bool) (f : α → α)
    (hq : ∀ x, q (f x) = q x) (hpq : ∀ x, p x = true → q x = false) (l : List α) :
    (updateFirst p f l).find? q = l.find? q := by
  induction l with
  | nil => rfl
  | cons x xs ih =>
    cases hx : p x with
    | true => simp [updateFirst, hx, List.find?_cons, hq x, hpq x hx]
    | false => simp [updateFirst, hx, List.find?_cons, ih]

theorem removeFirst_sublist (p : α → Bool) (l : List α) :
    (removeFirst p l).Sublist l := by
  induction l with
  | nil => simp [removeFirst]
  | cons x xs ih =>
    cases hx : p x with
    | true => simp [removeFirst, hx, List.sublist_cons_self]
    | false => simpa [removeFirst, hx] using ih.cons₂ x

theorem applyPatch_id (old : Card) (body : PatchBody) (now : Nat) :
    (applyPatch old body now).id = old.id := rfl

theorem patchedRow_id (now : Nat) (body : PatchBody) (old : Card) :
    (patchedRow now body old).id = old.id := by
  unfold patchedRow
  cases h : cardChanged old (applyPatch old body now) <;>
    simp [h, applyPatch_id]

/-! Field-projection lemmas for the operations. -/

theorem findCard_insertAudit (db : Db) (a : CardAudit) (c : Nat) :
    findCard (insertAudit db a) c = findCard db c := rfl

theorem findCard_bump_eq (db : Db) (k : Nat) :
    findCard (bumpCardVersion db k) k =
      (findCard db k).map (fun c => { c with version := c.version + 1 }) := by
  show (updateFirst (fun c => c.id == k) (fun c => { c with version := c.version + 1 })
      db.cards).find? (fun c => c.id == k) =
    (db.cards.find? (fun c => c.id == k)).map (fun c => { c with version := c.version + 1 })
  exact find?_updateFirst_self (fun c => c.id == k)
    (fun c => { c with version := c.version + 1 }) (fun x hx => hx) db.cards

theorem findCard_bump_ne (db : Db) (k c : Nat) (h : k ≠ c) :
    findCard (bumpCardVersion db k) c = findCard db c := by
  show (updateFirst (fun x => x.id == k) (fun x => { x with version := x.version + 1 })
      db.cards).find? (fun x => x.id == c) =
    db.cards.find? (fun x => x.id == c)
  refine find?_updateFirst_ne (fun x => x.id == k) (fun x => x.id == c)
    (fun x => { x with version := x.version + 1 }) (fun x => rfl) (fun x hx => ?_) db.cards
  simp only [beq_iff_eq] at hx ⊢
  simp [hx, h]

theorem findCard_applyCardUpdate_eq (db : Db) (k : Nat) (body : PatchBody) :
    findCard (applyCardUpdate db k body) k =
      (findCard db k).map (patchedRow db.now body) := by
  show (updateFirst (fun x => x.id == k) (patchedRow db.now body)
      db.cards).find? (fun x => x.id == k) =
    (db.cards.find? (fun x => x.id == k)).map (patchedRow db.now body)
  refine find?_updateFirst_self (fun x => x.id == k) (patchedRow db.now body)
    (fun x hx => ?_) db.cards
  simpa [patchedRow_id] using hx

theorem findCard_applyCardUpdate_ne (db : Db) (k c : Nat) (body : PatchBody) (h : k ≠ c) :
    findCard (applyCardUpdate db k body) c = findCard db c := by
  show (updateFirst (fun x => x.id == k) (patchedRow db.now body)
      db.cards).find? (fun x => x.id == c) =
    db.cards.find? (fun x => x.id == c)
  refine find?_updateFirst_ne (fun x => x.id == k) (fun x => x.id == c)
    (patchedRow db.now body) (fun x => by simp [patchedRow_id]) (fun x hx => ?_) db.cards
  simp only [beq_iff_eq] at hx ⊢
  simp [hx, h]

/-! Branch lemmas for updateCard. -/

theorem updateCard_notFound (db : Db) (cid uid : Nat) (body : PatchBody)
    (h : findCard db cid = none) :
    updateCard db cid body uid = (db, .error .NotFound) := by
  simp [updateCard, h]

theorem updateCard_success (db : Db) (cid uid : Nat) (body : PatchBody) (existing : Card)
    (hfind : findCard db cid = some existing)
    (hs : statusOkB body = true) (hp : prioOkB body = true)
    (hf : hasFieldsB body = true) (hv : versionOkB body existing = true)
    (hrow : rowCheckOkB (applyPatch existing body db.now) = true) :
    updateCard db cid body uid =
      (insertAudit (applyCardUpdate db cid body) (auditRow cid existing body uid),
       .ok ((findCard (applyCardUpdate db cid body) cid).getD existing)) := by
  simp [updateCard, hfind, hs, hp, hf, hv, hrow]
  rfl

theorem updateCard_storeError (db : Db) (cid uid : Nat) (body : PatchBody) (existing : Card)
    (hfind : findCard db cid = some existing)
    (hs : statusOkB body = true) (hp : prioOkB body = true)
    (hf : hasFieldsB body = true) (hv : versionOkB body existing = true)
    (hrow : rowCheckOkB (applyPatch existing body db.now) = false) :
    updateCard db cid body uid = (db, .error .StoreError) := by
  simp [updateCard, hfind, hs, hp, hf, hv, hrow]

theorem updateCard_conflict (db : Db) (cid uid : Nat) (body : PatchBody) (existing : Card)
    (hfind : findCard db cid = some existing)
    (hs : statusOkB body = true) (hp : prioOkB body = true)
    (hf : hasFieldsB body = true) (hv : versionOkB body existing = false) :
    updateCard db cid body uid = (db, .error (.VersionConflict existing.version)) := by
  simp [updateCard, hfind, hs, hp, hf, hv]

theorem updateCard_ok_inv (db db2 : Db) (cid uid : Nat) (body : PatchBody) (card2 : Card)
    (h : updateCard db cid body uid = (db2, .ok card2)) :
    ∃ existing, findCard db cid = some existing ∧ statusOkB body = true ∧
      prioOkB body = true ∧ hasFieldsB body = true ∧ versionOkB body existing = true ∧
      rowCheckOkB (applyPatch existing body db.now) = true := by
  unfold updateCard at h
  cases hfind : findCard db cid with
  | none => rw [hfind] at h; simp at h
  | some existing =>
    rw [hfind] at h
    refine ⟨existing, rfl, ?_⟩
    by_cases h1 : statusOkB body = true
    · by_cases h2 : prioOkB body = true
      · by_cases h3 : hasFieldsB body = true
        · by_cases h4 : versionOkB body existing = true
          · by_cases h5 : rowCheckOkB (applyPatch existing body db.now) = true
            · exact ⟨h1, h2, h3, h4, h5⟩
            · simp [h1, h2, h3, h4, Bool.eq_false_iff.mpr h5] at h
          · simp [h1, h2, h3, Bool.eq_false_iff.mpr h4] at h
        · simp [h1, h2, Bool.eq_false_iff.mpr h3] at h
      · simp [h1, Bool.eq_false_iff.mpr h2] at h
    · simp [Bool.eq_false_iff.mpr h1] at h

/-! Stability of untouched tables under each operation. -/

theorem updateCard_refs (db : Db) (cid uid : Nat) (body : PatchBody) :
    (updateCard db cid body uid).1.card_references = db.card_references := by
  unfold updateCard
  cases findCard db cid with
  | none => rfl
  | some existing => dsimp; split_ifs <;> rfl

theorem addComment_refs (db : Db) (cid uid : Nat) (msg : String) :
    (addComment db cid msg uid).1.card_references = db.card_references := by
  unfold addComment
  cases findCard db cid with
  | none => rfl
  | some c => dsimp; split_ifs <;> rfl

theorem deleteComment_refs (db : Db) (mid : Nat) :
    (deleteComment db mid).1.card_references = db.card_references := by
  unfold deleteComment
  cases db.comments.find? (fun c => c.id == mid) with
  | none => rfl
  | some cm => dsimp; split_ifs <;> rfl

theorem updateCard_badStatus (db : Db) (cid uid : Nat) (body : PatchBody) (existing : Card)
    (hfind : findCard db cid = some existing) (h1 : statusOkB body = false) :
    updateCard db cid body uid = (db, .error (.InvalidArgument "Invalid status")) := by
  simp [updateCard, hfind, h1]

theorem updateCard_badPrio (db : Db) (cid uid : Nat) (body : PatchBody) (existing : Card)
    (hfind : findCard db cid = some existing) (hs : statusOkB body = true)
    (h2 : prioOkB body = false) :
    updateCard db cid body uid =
      (db, .error (.InvalidArgument "Priority must be between 0 and 100")) := by
  simp [updateCard, hfind, hs, h2]

theorem updateCard_noFields (db : Db) (cid uid : Nat) (body : PatchBody) (existing : Card)
    (hfind : findCard db cid = some existing) (hs : statusOkB body = true)
    (hp : prioOkB body = true) (h3 : hasFieldsB body = false) :
    updateCard db cid body uid = (db, .error (.InvalidArgument "No fields to update")) := by
  simp [updateCard, hfind, hs, hp, h3]

theorem applyPatch_version (old : Card) (body : PatchBody) (now : Nat) :
    (applyPatch old body now).version = old.version := rfl

theorem patchedRow_version (now : Nat) (body : PatchBody) (old : Card) :
    (patchedRow now body old).version =
      if cardChanged old (applyPatch old body now) then old.version + 1 else old.version := by
  unfold patchedRow
  cases h : cardChanged old (applyPatch old body now) <;> simp [h, applyPatch_version]

theorem versionOf_bump (db : Db) (k c : Nat) :
    versionOf (bumpCardVersion db k) c =
      if k = c then (versionOf db c).map (fun v => v + 1) else versionOf db c := by
  by_cases h : k = c
  · subst h
    simp only [versionOf, findCard_bump_eq, if_pos rfl]
    cases findCard db k <;> simp
  · simp [versionOf, findCard_bump_ne db k c h, h]

theorem createReference_eq_of_ok (db : Db) (s t : Nat) (ty : String)
    (hok : createRefOkB db s t ty = true) :
    createReference db s t ty =
      (bumpCardVersion (withRefs db (db.card_references ++ [newReference db s t ty])) s,
       .ok (newReference db s t ty)) := by
  unfold createRefOkB at hok
  simp only [Bool.and_eq_true] at hok
  obtain ⟨⟨⟨⟨h1, h2⟩, h3⟩, h4⟩, h5⟩ := hok
  cases hcs : findCard db s with
  | none => rw [hcs] at h1; simp at h1
  | some cs =>
    cases hct : findCard db t with
    | none => rw [hct] at h2; simp at h2
    | some ct =>
      simp at h3 h4 h5
      simp [createReference, hcs, hct, h3, h4, h5]
      exact h5

theorem createReference_db_of_not_ok (db : Db) (s t : Nat) (ty : String)
    (hok : createRefOkB db s t ty = false) :
    (createReference db s t ty).1 = db := by
  unfold createReference
  split_ifs with h1 h2 h3 h4 <;> try rfl
  exfalso
  simp only [Bool.or_eq_true, Option.isNone_iff_eq_none, not_or] at h1
  obtain ⟨hs, ht⟩ := h1
  rw [Bool.not_eq_true] at h2 h3 h4
  have hh : createRefOkB db s t ty = true := by
    unfold createRefOkB
    simp only [Bool.and_eq_true]
    refine ⟨⟨⟨⟨?_, ?_⟩, ?_⟩, ?_⟩, ?_⟩
    · exact Option.isSome_iff_ne_none.mpr hs
    · exact Option.isSome_iff_ne_none.mpr ht
    · simp only [bne, h2, Bool.not_false]
    · simpa using h3
    · simp only [h4, Bool.not_false]
  rw [hh] at hok
  simp at hok

theorem map_add_zero_self (o : Option Nat) : o.map (fun v => v + 0) = o := by
  cases o <;> simp

/-- Per-request effect on a card version: plus one exactly when the request
is a qualifying mutation for that card, unchanged otherwise. -/
theorem versionOf_applyMutation (db : Db) (c : Nat) (m : Mutation) :
    versionOf (applyMutation db m) c =
      (versionOf db c).map (fun v => v + (if qualifiesFor db c m then 1 else 0)) := by
  cases m with
  | patch cid body uid =>
    cases hfind : findCard db cid with
    | none =>
      simp only [applyMutation, qualifiesFor, hfind]
      rw [updateCard_notFound db cid uid body hfind]
      simp [map_add_zero_self]
    | some existing =>
      by_cases h1 : statusOkB body = true
      case neg =>
        rw [Bool.not_eq_true] at h1
        simp only [applyMutation, qualifiesFor, hfind]
        rw [updateCard_badStatus db cid uid body existing hfind h1]
        simp [h1, map_add_zero_self]
      by_cases h2 : prioOkB body = true
      case neg =>
        rw [Bool.not_eq_true] at h2
        simp only [applyMutation, qualifiesFor, hfind]
        rw [updateCard_badPrio db cid uid body existing hfind h1 h2]
        simp [h2, map_add_zero_self]
      by_cases h3 : hasFieldsB body = true
      case neg =>
        rw [Bool.not_eq_true] at h3
        simp only [applyMutation, qualifiesFor, hfind]
        rw [updateCard_noFields db cid uid body existing hfind h1 h2 h3]
        simp [h3, map_add_zero_self]
      by_cases h4 : versionOkB body existing = true
      case neg =>
        rw [Bool.not_eq_true] at h4
        simp only [applyMutation, qualifiesFor, hfind]
        rw [updateCard_conflict db cid uid body existing hfind h1 h2 h3 h4]
        simp [h4, map_add_zero_self]
      by_cases h5 : rowCheckOkB (applyPatch existing body db.now) = true
      case neg =>
        rw [Bool.not_eq_true] at h5
        simp only [applyMutation, qualifiesFor, hfind]
        rw [updateCard_storeError db cid uid body existing hfind h1 h2 h3 h4 h5]
        simp [h5, map_add_zero_self]
      simp only [applyMutation, qualifiesFor, hfind]
      rw [updateCard_success db cid uid body existing hfind h1 h2 h3 h4 h5]
      by_cases hc : cid = c
      · subst hc
        simp only [versionOf, findCard_insertAudit, findCard_applyCardUpdate_eq, hfind,
          Option.map_some', patchedRow_version, beq_self_eq_true, h1, h2, h3, h4, h5,
          Bool.true_and]
        cases hch : cardChanged existing (applyPatch existing body db.now) <;> simp [hch]
      · have hbc : (cid == c) = false := by simp [hc]
        simp only [versionOf, findCard_insertAudit,
          findCard_applyCardUpdate_ne db cid c body hc, hbc, Bool.false_and]
        cases findCard db c <;> simp
  | addComment cid msg uid =>
    cases hfind : findCard db cid with
    | none =>
      simp only [applyMutation, qualifiesFor, hfind]
      simp [addComment, hfind, map_add_zero_self]
    | some x =>
      by_cases hmsg : (msg == "") = true
      · simp only [applyMutation, qualifiesFor, hfind]
        simp [addComment, hfind, hmsg, map_add_zero_self, bne]
      · rw [Bool.not_eq_true] at hmsg
        simp only [applyMutation, qualifiesFor, hfind]
        have h1 : (addComment db cid msg uid).1 =
            bumpCardVersion (withComments db (db.comments ++ [newComment db cid msg uid])) cid := by
          simp [addComment, hfind, hmsg]
        rw [h1, versionOf_bump]
        have hvof : versionOf (withComments db (db.comments ++ [newComment db cid msg uid])) c =
            versionOf db c := rfl
        rw [hvof]
        by_cases hc : cid = c
        · simp [hc, bne, hmsg]
        · have hbc : (cid == c) = false := by simp [hc]
          simp [hc, hbc, map_add_zero_self]
  | delComment mid =>
    cases hfind : db.comments.find? (fun x => x.id == mid) with
    | none =>
      simp only [applyMutation, qualifiesFor, hfind]
      simp [deleteComment, hfind, map_add_zero_self]
    | some cm =>
      by_cases hst : (cm.status == "deleted") = true
      · simp only [applyMutation, qualifiesFor, hfind]
        simp [deleteComment, hfind, hst, map_add_zero_self, bne]
      · rw [Bool.not_eq_true] at hst
        simp only [applyMutation, qualifiesFor, hfind]
        have h1 : (deleteComment db mid).1 =
            bumpCardVersion (withComments db (updateFirst (fun x => x.id == mid)
              (fun x => { x with status := "deleted" }) db.comments)) cm.card_id := by
          simp [deleteComment, hfind, hst]
        rw [h1, versionOf_bump]
        have hvof : versionOf (withComments db (updateFirst (fun x => x.id == mid)
            (fun x => { x with status := "deleted" }) db.comments)) c =
            versionOf db c := rfl
        rw [hvof]
        by_cases hc : cm.card_id = c
        · simp [hc, bne, hst]
        · have hbc : (cm.card_id == c) = false := by simp [hc]
          simp [hc, hbc, bne, hst, map_add_zero_self]
  | addRef s t ty =>
    by_cases hok : createRefOkB db s t ty = true
    · simp only [applyMutation, qualifiesFor]
      rw [createReference_eq_of_ok db s t ty hok]
      have hvof : versionOf (withRefs db (db.card_references ++ [newReference db s t ty])) c =
          versionOf db c := rfl
      show versionOf (bumpCardVersion (withRefs db
        (db.card_references ++ [newReference db s t ty])) s) c = _
      rw [versionOf_bump, hvof]
      by_cases hc : s = c
      · subst hc; simp [hok]
      · have hbc : (s == c) = false := by simp [hc]
        simp [hc, hbc, map_add_zero_self]
    · rw [Bool.not_eq_true] at hok
      simp only [applyMutation, qualifiesFor]
      rw [createReference_db_of_not_ok db s t ty hok]
      simp [hok, map_add_zero_self]
  | delRef cid rid =>
    cases hfind : db.card_references.find? (fun r => r.id == rid && r.source_card_id == cid) with
    | none =>
      simp only [applyMutation, qualifiesFor, hfind]
      simp [deleteReference, hfind, map_add_zero_self]
    | some r =>
      have hsrc : r.source_card_id = cid := by
        have hp := List.find?_some hfind
        simp only [Bool.and_eq_true, beq_iff_eq] at hp
        exact hp.2
      simp only [applyMutation, qualifiesFor, hfind]
      have h1 : (deleteReference db cid rid).1 =
          bumpCardVersion (withRefs db (removeFirst
            (fun x => x.id == rid && x.source_card_id == cid) db.card_references))
            r.source_card_id := by
        simp [deleteReference, hfind]
      rw [h1, hsrc, versionOf_bump]
      have hvof : versionOf (withRefs db (removeFirst
          (fun x => x.id == rid && x.source_card_id == cid) db.card_references)) c =
          versionOf db c := rfl
      rw [hvof]
      by_cases hc : cid = c
      · simp [hc]
      · have hbc : (cid == c) = false := by simp [hc]
        simp [hc, hbc, map_add_zero_self]
/-- Version after a request trajectory: initial version plus the number of
qualifying mutations along the trajectory. -/
theorem versionOf_applyMutations (db : Db) (c : Nat) (ms : List Mutation) :
    versionOf (applyMutations db ms) c =
      (versionOf db c).map (fun v => v + countQualifying db c ms) := by
  induction ms generalizing db with
  | nil =>
    simp only [applyMutations, countQualifying]
    cases versionOf db c <;> simp
  | cons m ms ih =>
    simp only [applyMutations, countQualifying]
    rw [ih, versionOf_applyMutation]
    cases versionOf db c <;> simp [Nat.add_assoc]

/-- A patch that only re-supplies stored values never satisfies the WHEN
clause of the version trigger. -/
theorem cardChanged_applyPatch_false (old : Card) (body : PatchBody) (now : Nat)
    (h : suppliesIdentical old body) :
    cardChanged old (applyPatch old body now) = false := by
  obtain ⟨ht, hd, hs, hp⟩ := h
  unfold cardChanged applyPatch
  simp only [Bool.or_eq_false_iff, bne_eq_false_iff_eq]
  refine ⟨⟨⟨?_, ?_⟩, ?_⟩, ?_⟩
  · rcases ht with h | h <;> simp [h]
  · rcases hd with h | h <;> simp [h]
  · rcases hs with h | h <;> simp [h]
  · rcases hp with h | h <;> simp [h]

theorem refsInvariant_of_refs_eq (db1 db2 : Db)
    (he : db1.card_references = db2.card_references) (h : refsInvariant db2) :
    refsInvariant db1 := by
  unfold refsInvariant at h ⊢
  rw [he]
  exact h

/-- The reference-graph invariant is preserved by every engine operation. -/
theorem refsInvariant_applyMutation (db : Db) (m : Mutation) (h : refsInvariant db) :
    refsInvariant (applyMutation db m) := by
  cases m with
  | patch cid body uid =>
    exact refsInvariant_of_refs_eq _ db (updateCard_refs db cid uid body) h
  | addComment cid msg uid =>
    exact refsInvariant_of_refs_eq _ db (addComment_refs db cid uid msg) h
  | delComment mid =>
    exact refsInvariant_of_refs_eq _ db (deleteComment_refs db mid) h
  | addRef s t ty =>
    by_cases hok : createRefOkB db s t ty = true
    · show refsInvariant (createReference db s t ty).1
      rw [createReference_eq_of_ok db s t ty hok]
      have hrefs : (bumpCardVersion (withRefs db
          (db.card_references ++ [newReference db s t ty])) s).card_references =
          db.card_references ++ [newReference db s t ty] := rfl
      unfold createRefOkB at hok
      simp only [Bool.and_eq_true] at hok
      obtain ⟨⟨⟨⟨hc1, hc2⟩, hst⟩, hty⟩, hdup⟩ := hok
      simp only [bne_iff_ne] at hst
      simp only [Bool.not_eq_true', List.any_eq_false] at hdup
      obtain ⟨hself, hnodup⟩ := h
      constructor
      · rw [hrefs]
        intro r hr
        rcases List.mem_append.mp hr with hmem | hmem
        · exact hself r hmem
        · rcases List.mem_singleton.mp hmem with rfl
          exact hst
      · rw [hrefs, List.map_append]
        simp only [List.map_cons, List.map_nil]
        rw [List.nodup_append]
        refine ⟨hnodup, List.nodup_singleton _, ?_⟩
        intro x hx hx1
        simp only [List.mem_singleton] at hx1
        subst hx1
        rcases List.mem_map.mp hx with ⟨r, hr, htr⟩
        have := hdup r hr
        unfold sameTriple at this
        simp only [newReference] at htr
        have h1 : r.source_card_id = s := congrArg Prod.fst htr
        have h2 : r.target_card_id = t := congrArg Prod.fst (congrArg Prod.snd htr)
        have h3 : r.reference_type = ty := congrArg Prod.snd (congrArg Prod.snd htr)
        simp [h1, h2, h3] at this
    · rw [Bool.not_eq_true] at hok
      show refsInvariant (createReference db s t ty).1
      exact refsInvariant_of_refs_eq _ db
        (by rw [createReference_db_of_not_ok db s t ty hok]) h
  | delRef cid rid =>
    show refsInvariant (deleteReference db cid rid).1
    cases hfind : db.card_references.find? (fun r => r.id == rid && r.source_card_id == cid) with
    | none => simpa [deleteReference, hfind] using h
    | some r =>
      have h1 : (deleteReference db cid rid).1.card_references =
          removeFirst (fun x => x.id == rid && x.source_card_id == cid) db.card_references := by
        simp [deleteReference, hfind]
        rfl
      obtain ⟨hself, hnodup⟩ := h
      have hsub := removeFirst_sublist
        (fun x => x.id == rid && x.source_card_id == cid) db.card_references
      constructor
      · rw [h1]
        intro x hx
        exact hself x (hsub.subset hx)
      · rw [h1]
        exact (hsub.map _).nodup hnodup

/-- The reference-graph invariant holds in every reachable state. -/
theorem refsInvariant_reachable (db0 db : Db) (h0 : refsInvariant db0)
    (h : Reachable db0 db) : refsInvariant db := by
  induction h with
  | refl => exact h0
  | step m hr ih => exact refsInvariant_applyMutation _ m ih

/-! Field lemmas for the patched row. -/

theorem applyPatch_title (old : Card) (body : PatchBody) (now : Nat) :
    (applyPatch old body now).title = body.title.getD old.title := rfl

theorem applyPatch_description (old : Card) (body : PatchBody) (now : Nat) :
    (applyPatch old body now).description =
      (match body.description with | some d => d | none => old.description) := rfl

theorem applyPatch_status (old : Card) (body : PatchBody) (now : Nat) :
    (applyPatch old body now).status = body.status.getD old.status := rfl

theorem applyPatch_priority (old : Card) (body : PatchBody) (now : Nat) :
    (applyPatch old body now).priority = body.priority.getD old.priority := rfl

theorem applyPatch_updated_at (old : Card) (body : PatchBody) (now : Nat) :
    (applyPatch old body now).updated_at = now := rfl

theorem patchedRow_title (now : Nat) (body : PatchBody) (old : Card) :
    (patchedRow now body old).title = body.title.getD old.title := by
  unfold patchedRow
  cases h : cardChanged old (applyPatch old body now) <;> simp [h, applyPatch_title]

theorem patchedRow_description (now : Nat) (body : PatchBody) (old : Card) :
    (patchedRow now body old).description =
      (match body.description with | some d => d | none => old.description) := by
  unfold patchedRow
  cases h : cardChanged old (applyPatch old body now) <;> simp [h, applyPatch_description]

theorem patchedRow_status (now : Nat) (body : PatchBody) (old : Card) :
    (patchedRow now body old).status = body.status.getD old.status := by
  unfold patchedRow
  cases h : cardChanged old (applyPatch old body now) <;> simp [h, applyPatch_status]

theorem patchedRow_priority (now : Nat) (body : PatchBody) (old : Card) :
    (patchedRow now body old).priority = body.priority.getD old.priority := by
  unfold patchedRow
  cases h : cardChanged old (applyPatch old body now) <;> simp [h, applyPatch_priority]

theorem patchedRow_updated_at (now : Nat) (body : PatchBody) (old : Card) :
    (patchedRow now body old).updated_at = now := by
  unfold patchedRow
  cases h : cardChanged old (applyPatch old body now) <;> simp [h, applyPatch_updated_at]

theorem findCard_isSome_bump (db : Db) (k c : Nat) :
    (findCard (bumpCardVersion db k) c).isSome = (findCard db c).isSome := by
  by_cases h : k = c
  · subst h
    rw [findCard_bump_eq]
    cases findCard db k <;> simp
  · rw [findCard_bump_ne db k c h]

theorem createReference_ok_res (db : Db) (s t : Nat) (ty : String)
    (hok : createRefOkB db s t ty = true) :
    (createReference db s t ty).2 = .ok (newReference db s t ty) := by
  rw [createReference_eq_of_ok db s t ty hok]

theorem createReference_dup (db : Db) (s t : Nat) (ty : String)
    (hs : (findCard db s).isSome = true) (ht : (findCard db t).isSome = true)
    (hst : s ≠ t) (hty : validReferenceTypes.contains ty = true)
    (hany : db.card_references.any (sameTriple s t ty) = true) :
    (createReference db s t ty).2 = .error .AlreadyExists := by
  obtain ⟨cs, hcs⟩ := Option.isSome_iff_exists.mp hs
  obtain ⟨ct, hct⟩ := Option.isSome_iff_exists.mp ht
  have hty2 := hty
  simp at hty2 hany
  simp [createReference, hcs, hct, hst, hty2, hany]

/-! Concrete fixtures used by the witness theorems. -/

def wCard1 : Card :=
  { id := 1, project_id := 1, title := "Fix crash", description := some "old notes",
    status := "backlog", priority := 50, created_by := 1, created_at := 0,
    updated_at := 0, version := 1 }

def wCard2 : Card := { wCard1 with id := 2, title := "bug alpha", description := some "zzz" }

def wCard3 : Card := { wCard1 with id := 3, title := "zzz", description := some "bug alpha" }

def wDb1 : Db :=
  { cards := [wCard1], comments := [], cards_audit := [], card_references := [], now := 9 }

def wDb2 : Db := { wDb1 with cards := [wCard3, wCard2] }

def wDbR : Db := { wDb1 with cards := [wCard1, wCard2] }

def wCm1 : Comment :=
  { id := 10, card_id := 1, message := "keep me", created_by := 1, created_at := 4,
    status := "created" }

def wCm2 : Comment := { wCm1 with id := 11, message := "older", created_at := 2 }

def wCm3 : Comment := { wCm1 with id := 12, message := "hidden", created_at := 1, status := "deleted" }

def wDbC : Db := { wDb1 with comments := [wCm1, wCm2, wCm3] }

def wBodyNull : PatchBody :=
  { title := none, description := some none, status := none, priority := none, version := none }

def wBodyStatus : PatchBody :=
  { title := none, description := none, status := some "review", priority := none, version := none }

def wBodyStale : PatchBody :=
  { title := some "New title", description := none, status := none, priority := none,
    version := some 99 }

def wBodyNoop : PatchBody :=
  { title := some "Fix crash", description := none, status := none, priority := none,
    version := none }

def wParamsFull : ListParams :=
  { id := some 3, status := some "done", priority := some 7, project_id := some 2,
    search := some "bug" }

def wParamsSearch : ListParams :=
  { id := none, status := none, priority := none, project_id := none, search := some "bug" }

/-! Claim theorems. -/

/-- C6: for every card-list request with a non-empty search string, the
result is determined solely by the search string; the id, project id,
status and priority filters are ignored, so two requests with the same
search string and any other filters return the same sequence of cards. -/
theorem claim_C6_search_ignores_filters (db : Db) (p q : ListParams) (s : String)
    (hs : s ≠ "") (hp : p.search = some s) (hq : q.search = some s) :
    listCards db p = listCards db q := by
  have hsp : searchPresent p = true := by simp [searchPresent, hp, bne_iff_ne, hs]
  have hsq : searchPresent q = true := by simp [searchPresent, hq, bne_iff_ne, hs]
  simp [listCards, hsp, hsq, hp, hq]

theorem claim_C6_witness : listCards wDb2 wParamsFull = listCards wDb2 wParamsSearch :=
  claim_C6_search_ignores_filters wDb2 wParamsFull wParamsSearch "bug" (by decide) rfl rfl

/-- C8: deleting a nonexistent comment fails NotFound; deleting an already
deleted comment fails InvalidArgument with the store untouched; deleting a
non-deleted comment flips exactly its status to deleted, preserving every
other field of the row, and a second delete then fails InvalidArgument. -/
theorem claim_C8_delete_comment (db : Db) (mid : Nat) :
    (db.comments.find? (fun x => x.id == mid) = none →
      deleteComment db mid = (db, .error .NotFound))
    ∧ (∀ cm, db.comments.find? (fun x => x.id == mid) = some cm → cm.status = "deleted" →
      deleteComment db mid = (db, .error (.InvalidArgument "Comment already deleted")))
    ∧ (∀ cm, db.comments.find? (fun x => x.id == mid) = some cm → cm.status ≠ "deleted" →
      (deleteComment db mid).2 = .ok ()
      ∧ (deleteComment db mid).1.comments.find? (fun x => x.id == mid) =
          some { cm with status := "deleted" }
      ∧ (deleteComment (deleteComment db mid).1 mid).2 =
          .error (.InvalidArgument "Comment already deleted")) := by
  refine ⟨?_, ?_, ?_⟩
  · intro h
    simp [deleteComment, h]
  · intro cm h hdel
    simp [deleteComment, h, hdel]
  · intro cm h hnd
    have hndb : (cm.status == "deleted") = false := by
      simp [hnd]
    have hres : deleteComment db mid =
        (bumpCardVersion (withComments db (updateFirst (fun x => x.id == mid)
          (fun x => { x with status := "deleted" }) db.comments)) cm.card_id, .ok ()) := by
      simp [deleteComment, h, hndb]
    have hcomm : (deleteComment db mid).1.comments =
        updateFirst (fun x => x.id == mid) (fun x => { x with status := "deleted" })
          db.comments := by
      rw [hres]
      rfl
    have hfind2 : (deleteComment db mid).1.comments.find? (fun x => x.id == mid) =
        some { cm with status := "deleted" } := by
      rw [hcomm, find?_updateFirst_self (fun x => x.id == mid)
        (fun x => { x with status := "deleted" }) (fun x hx => hx) db.comments, h]
      rfl
    refine ⟨by rw [hres], hfind2, ?_⟩
    generalize hY : (deleteComment db mid).1 = Y at hfind2
    simp [deleteComment, hfind2]

theorem claim_C8_witness :
    (deleteComment wDbC 10).2 = .ok ()
    ∧ (deleteComment wDbC 10).1.comments.find? (fun x => x.id == 10) =
        some { wCm1 with status := "deleted" }
    ∧ (deleteComment (deleteComment wDbC 10).1 10).2 =
        .error (.InvalidArgument "Comment already deleted") :=
  (claim_C8_delete_comment wDbC 10).2.2 wCm1 rfl (by decide)

/-- C9: for an existing card, the comment listing returns exactly the
non-deleted comments of that card, ordered by creation time ascending; a
soft-deleted comment never appears even though its row persists. -/
theorem claim_C9_comment_listing (db : Db) (cid : Nat)
    (hcard : (findCard db cid).isSome = true) :
    ∃ l, listComments db cid = .ok l
      ∧ (∀ cm ∈ l, cm.card_id = cid ∧ cm.status ≠ "deleted")
      ∧ List.Pairwise commentLe l
      ∧ (∀ cm ∈ db.comments, cm.status = "deleted" → cm ∉ l)
      ∧ (∀ cm ∈ db.comments, cm.card_id = cid → cm.status ≠ "deleted" → cm ∈ l) := by
  obtain ⟨c0, hc0⟩ := Option.isSome_iff_exists.mp hcard
  refine ⟨List.insertionSort commentLe
    (db.comments.filter (fun cm => cm.card_id == cid && cm.status != "deleted")),
    by simp [listComments, hc0], ?_, ?_, ?_, ?_⟩
  · intro cm hm
    rw [List.mem_insertionSort, List.mem_filter] at hm
    have hm2 := hm.2
    simp only [Bool.and_eq_true, beq_iff_eq, bne_iff_ne] at hm2
    exact hm2
  · haveI : IsTotal Comment commentLe := ⟨fun a b => Nat.le_total a.created_at b.created_at⟩
    haveI : IsTrans Comment commentLe :=
      ⟨fun a b c hab hbc => Nat.le_trans hab hbc⟩
    exact List.sorted_insertionSort commentLe _
  · intro cm hcm hdel hmem
    rw [List.mem_insertionSort, List.mem_filter] at hmem
    simp [hdel] at hmem
  · intro cm hcm hcid hnd
    rw [List.mem_insertionSort, List.mem_filter]
    refine ⟨hcm, ?_⟩
    simp [hcid, hnd]

theorem claim_C9_witness :
    ∃ l, listComments wDbC 1 = .ok l
      ∧ (∀ cm ∈ l, cm.card_id = 1 ∧ cm.status ≠ "deleted")
      ∧ List.Pairwise commentLe l
      ∧ (∀ cm ∈ wDbC.comments, cm.status = "deleted" → cm ∉ l)
      ∧ (∀ cm ∈ wDbC.comments, cm.card_id = 1 → cm.status ≠ "deleted" → cm ∈ l) :=
  claim_C9_comment_listing wDbC 1 (by decide)

/-- C1: on an otherwise valid update of an existing card, a supplied
callerVersion different from the stored version fails VersionConflict
carrying the current version with the store untouched; when the patched
row also satisfies the cards schema CHECK (every request the spec admits;
only an empty-string status slips past the JS-truthy validation and fails
the CHECK instead), a supplied callerVersion equal to the stored version
succeeds, and an omitted callerVersion proceeds unconditionally. -/
theorem claim_C1_optimistic_concurrency (db : Db) (cid uid : Nat) (body : PatchBody)
    (existing : Card) (hfind : findCard db cid = some existing)
    (hs : statusOkB body = true) (hp : prioOkB body = true) (hf : hasFieldsB body = true) :
    (∀ v, body.version = some v → v ≠ existing.version →
      updateCard db cid body uid = (db, .error (.VersionConflict existing.version)))
    ∧ (body.version = some existing.version →
      rowCheckOkB (applyPatch existing body db.now) = true →
      ∃ card2, (updateCard db cid body uid).2 = .ok card2)
    ∧ (body.version = none →
      rowCheckOkB (applyPatch existing body db.now) = true →
      ∃ card2, (updateCard db cid body uid).2 = .ok card2) := by
  refine ⟨?_, ?_, ?_⟩
  · intro v hv hne
    have hvb : versionOkB body existing = false := by
      simp [versionOkB, hv, hne]
    exact updateCard_conflict db cid uid body existing hfind hs hp hf hvb
  · intro hv hrow
    have hvb : versionOkB body existing = true := by simp [versionOkB, hv]
    rw [updateCard_success db cid uid body existing hfind hs hp hf hvb hrow]
    exact ⟨_, rfl⟩
  · intro hv hrow
    have hvb : versionOkB body existing = true := by simp [versionOkB, hv]
    rw [updateCard_success db cid uid body existing hfind hs hp hf hvb hrow]
    exact ⟨_, rfl⟩

theorem claim_C1_witness :
    updateCard wDb1 1 wBodyStale 7 = (wDb1, .error (.VersionConflict 1)) :=
  (claim_C1_optimistic_concurrency wDb1 1 7 wBodyStale wCard1 rfl (by decide) (by decide)
    (by decide)).1 99 rfl (by decide)

/-- C2: the two store writes of a successful PATCH are separate statement
transactions (two bare db.run calls with no BEGIN), so the execution has a
durable intermediate state, after the card UPDATE of server.ts line 339
and before the audit INSERT of line 345, in which the card mutation has
persisted while no audit row exists; a crash there refutes atomicity. -/
theorem claim_C2_update_audit_not_atomic :
    ((findCard (applyCardUpdate wDb1 1 wBodyStatus) 1).map (fun c => c.status) = some "review")
    ∧ (applyCardUpdate wDb1 1 wBodyStatus).cards_audit = wDb1.cards_audit
    ∧ (updateCard wDb1 1 wBodyStatus 7).1 =
        insertAudit (applyCardUpdate wDb1 1 wBodyStatus) (auditRow 1 wCard1 wBodyStatus 7) :=
  ⟨rfl, rfl, rfl⟩

/-- C3 counterexample: patching card 1 of wDb1 with an explicit null
description clears the stored description (post-update value none), yet
the audit row written by the same request records the old description as
its new value, because the handler builds the audit with JS nullish
coalescing; so the audit does not record the post-update value as new. -/
theorem claim_C3_counterexample :
    (((updateCard wDb1 1 wBodyNull 7).1.cards.find? (fun c => c.id == 1)).map
        (fun c => c.description) = some none)
    ∧ ((updateCard wDb1 1 wBodyNull 7).1.cards_audit.map (fun a => a.new_description) =
        [some "old notes"])
    ∧ (some "old notes" : Option String) ≠ (none : Option String) :=
  ⟨rfl, rfl, by decide⟩

/-- C3 amended: a successful update applies exactly the supplied fields
(omitted fields keep their prior values, an explicit null clears the
description) and appends one audit row whose old values are the pre-update
values; the audit new values equal the post-update values for title,
status and priority, while the audit new description is the supplied
string when one is given and otherwise repeats the pre-update description,
so a patch clearing the description via explicit null is recorded in the
audit as unchanged. -/
theorem claim_C3_partial_update_and_audit (db : Db) (cid uid : Nat) (body : PatchBody)
    (existing : Card) (hfind : findCard db cid = some existing)
    (hs : statusOkB body = true) (hp : prioOkB body = true) (hf : hasFieldsB body = true)
    (hv : versionOkB body existing = true)
    (hrow : rowCheckOkB (applyPatch existing body db.now) = true) :
    ∃ c2, findCard (updateCard db cid body uid).1 cid = some c2
      ∧ (updateCard db cid body uid).1.cards_audit =
          db.cards_audit ++ [auditRow cid existing body uid]
      ∧ c2.title = body.title.getD existing.title
      ∧ c2.description =
          (match body.description with | some d => d | none => existing.description)
      ∧ c2.status = body.status.getD existing.status
      ∧ c2.priority = body.priority.getD existing.priority
      ∧ c2.updated_at = db.now
      ∧ (auditRow cid existing body uid).old_title = existing.title
      ∧ (auditRow cid existing body uid).old_description = existing.description
      ∧ (auditRow cid existing body uid).old_status = existing.status
      ∧ (auditRow cid existing body uid).old_priority = existing.priority
      ∧ (auditRow cid existing body uid).new_title = c2.title
      ∧ (auditRow cid existing body uid).new_status = c2.status
      ∧ (auditRow cid existing body uid).new_priority = c2.priority
      ∧ (auditRow cid existing body uid).new_description =
          (match body.description with
           | some (some str) => some str
           | some none => existing.description
           | none => existing.description) := by
  rw [updateCard_success db cid uid body existing hfind hs hp hf hv hrow]
  refine ⟨patchedRow db.now body existing, ?_, ?_, patchedRow_title db.now body existing,
    patchedRow_description db.now body existing, patchedRow_status db.now body existing,
    patchedRow_priority db.now body existing, patchedRow_updated_at db.now body existing,
    rfl, rfl, rfl, rfl, ?_, ?_, ?_, ?_⟩
  · show findCard (applyCardUpdate db cid body) cid = some (patchedRow db.now body existing)
    rw [findCard_applyCardUpdate_eq, hfind]
    rfl
  · rfl
  · rw [patchedRow_title]
    rfl
  · rw [patchedRow_status]
    rfl
  · rw [patchedRow_priority]
    rfl
  · show jsCoalesceDesc body.description existing.description = _
    cases hbd : body.description with
    | none => rfl
    | some d => cases d <;> rfl

theorem claim_C3_witness :
    (updateCard wDb1 1 wBodyNull 7).1.cards_audit =
      wDb1.cards_audit ++ [auditRow 1 wCard1 wBodyNull 7] := by
  obtain ⟨c2, h1, h2, hrest⟩ := claim_C3_partial_update_and_audit wDb1 1 7 wBodyNull wCard1
    rfl (by decide) (by decide) (by decide) (by decide) (by decide)
  exact h2

/-- C10: every successful update appends exactly one audit row and touches
updated_at with the request timestamp; when the patch only re-supplies the
stored values, the version is unchanged while the audit row is still
appended, with equal old and new values in every field. -/
theorem claim_C10_audit_on_noop (db : Db) (cid uid : Nat) (body : PatchBody)
    (existing : Card) (hfind : findCard db cid = some existing)
    (hs : statusOkB body = true) (hp : prioOkB body = true) (hf : hasFieldsB body = true)
    (hv : versionOkB body existing = true)
    (hrow : rowCheckOkB (applyPatch existing body db.now) = true) :
    ((updateCard db cid body uid).1.cards_audit.length = db.cards_audit.length + 1)
    ∧ ((findCard (updateCard db cid body uid).1 cid).map (fun c => c.updated_at) =
        some db.now)
    ∧ (suppliesIdentical existing body →
        versionOf (updateCard db cid body uid).1 cid = some existing.version
        ∧ (updateCard db cid body uid).1.cards_audit =
            db.cards_audit ++ [auditRow cid existing body uid]
        ∧ (auditRow cid existing body uid).new_title =
            (auditRow cid existing body uid).old_title
        ∧ (auditRow cid existing body uid).new_description =
            (auditRow cid existing body uid).old_description
        ∧ (auditRow cid existing body uid).new_status =
            (auditRow cid existing body uid).old_status
        ∧ (auditRow cid existing body uid).new_priority =
            (auditRow cid existing body uid).old_priority) := by
  rw [updateCard_success db cid uid body existing hfind hs hp hf hv hrow]
  have hau : (applyCardUpdate db cid body).cards_audit = db.cards_audit := rfl
  refine ⟨by simp [insertAudit, hau], ?_, ?_⟩
  · show (findCard (applyCardUpdate db cid body) cid).map (fun c => c.updated_at) = some db.now
    rw [findCard_applyCardUpdate_eq, hfind]
    simp [patchedRow_updated_at]
  · intro hid
    obtain ⟨ht, hd, hst, hpr⟩ := hid
    have hch : cardChanged existing (applyPatch existing body db.now) = false :=
      cardChanged_applyPatch_false existing body db.now ⟨ht, hd, hst, hpr⟩
    refine ⟨?_, rfl, ?_, ?_, ?_, ?_⟩
    · show versionOf (applyCardUpdate db cid body) cid = some existing.version
      unfold versionOf
      rw [findCard_applyCardUpdate_eq, hfind]
      simp [patchedRow_version, hch]
    · show body.title.getD existing.title = existing.title
      rcases ht with h | h <;> simp [h]
    · show jsCoalesceDesc body.description existing.description = existing.description
      rcases hd with h | h <;> simp [h, jsCoalesceDesc]
      cases hdesc : existing.description <;> simp [h, hdesc, jsCoalesceDesc]
    · show body.status.getD existing.status = existing.status
      rcases hst with h | h <;> simp [h]
    · show body.priority.getD existing.priority = existing.priority
      rcases hpr with h | h <;> simp [h]

theorem claim_C10_witness :
    versionOf (updateCard wDb1 1 wBodyNoop 7).1 1 = some 1
    ∧ (updateCard wDb1 1 wBodyNoop 7).1.cards_audit =
        wDb1.cards_audit ++ [auditRow 1 wCard1 wBodyNoop 7] := by
  have h := claim_C10_audit_on_noop wDb1 1 7 wBodyNoop wCard1 rfl (by decide) (by decide)
    (by decide) (by decide) (by decide)
  obtain ⟨hv, hnoop⟩ := h.2.2 (by constructor <;> simp [wBodyNoop, wCard1])
  exact ⟨hv, hnoop.1⟩

/-- C7: FTS results are ordered by the bm25 key with column weights 10 on
title and 1 on description; for two result cards with equal-strength
matches, one confined to the title and the other to the description, the
title-match card occupies the earlier position. -/
theorem claim_C7_title_outranks_description (db : Db) (s : String) (a b : Card)
    (i j : Nat) (hi : i < (ftsSearch db s).length) (hj : j < (ftsSearch db s).length)
    (ha : (ftsSearch db s).get ⟨i, hi⟩ = a) (hb : (ftsSearch db s).get ⟨j, hj⟩ = b)
    (heq : titleScore s a = descScore s b) (hpos : 0 < titleScore s a)
    (hda : descScore s a = 0) (htb : titleScore s b = 0) : i < j := by
  have hsorted : List.Pairwise (ftsLe s) (ftsSearch db s) := by
    haveI : IsTotal Card (ftsLe s) := ⟨fun x y => Int.le_total (bm25key s x) (bm25key s y)⟩
    haveI : IsTrans Card (ftsLe s) :=
      ⟨fun x y z hxy hyz => Int.le_trans hxy hyz⟩
    exact List.sorted_insertionSort (ftsLe s) _
  have hkey : bm25key s a < bm25key s b := by
    unfold bm25key
    rw [hda, htb, ← heq]
    have hz : (0 : Int) < (titleScore s a : Int) := by exact_mod_cast hpos
    omega
  rcases Nat.lt_trichotomy i j with h | h | h
  · exact h
  · exfalso
    have hab : a = b := by
      rw [← ha, ← hb]
      congr 1
      exact Fin.ext h
    rw [hab] at hkey
    exact lt_irrefl _ hkey
  · exfalso
    have hle : ftsLe s ((ftsSearch db s).get ⟨j, hj⟩) ((ftsSearch db s).get ⟨i, hi⟩) :=
      List.pairwise_iff_get.mp hsorted ⟨j, hj⟩ ⟨i, hi⟩ h
    rw [ha, hb] at hle
    exact absurd hkey (not_lt.mpr hle)

theorem claim_C7_witness : (0 : Nat) < 1 :=
  claim_C7_title_outranks_description wDb2 "bug" wCard2 wCard3 0 1
    (by decide) (by decide) (by decide) (by decide) rfl (by decide) rfl rfl

/-- C4: the version counter of a card rises by exactly one per qualifying
mutation (an update that actually changes title, description, status or
priority; a comment insertion; a comment transition to deleted; a
reference insertion or deletion whose source is the card), so after a
trajectory of requests the version equals the initial version plus the
number of qualifying mutations; a no-op update re-supplying stored values
leaves the version unchanged, and a reference creation never changes the
target card version. -/
theorem claim_C4_version_counter (db : Db) (c : Nat) (card0 : Card)
    (hfind : findCard db c = some card0) :
    (∀ m : Mutation, versionOf (applyMutation db m) c =
        some (card0.version + (if qualifiesFor db c m then 1 else 0)))
    ∧ (∀ ms : List Mutation, versionOf (applyMutations db ms) c =
        some (card0.version + countQualifying db c ms))
    ∧ (∀ body uid, suppliesIdentical card0 body →
        versionOf (updateCard db c body uid).1 c = some card0.version)
    ∧ (∀ s t ty, versionOf (createReference db s t ty).1 t = versionOf db t)
    ∧ (∀ cid rid c2, cid ≠ c2 →
        versionOf (deleteReference db cid rid).1 c2 = versionOf db c2) := by
  have hv0 : versionOf db c = some card0.version := by simp [versionOf, hfind]
  refine ⟨?_, ?_, ?_, ?_, ?_⟩
  · intro m
    rw [versionOf_applyMutation, hv0]
    rfl
  · intro ms
    rw [versionOf_applyMutations, hv0]
    rfl
  · intro body uid hid
    have happ : (updateCard db c body uid).1 = applyMutation db (.patch c body uid) := rfl
    rw [happ, versionOf_applyMutation, hv0]
    have hch := cardChanged_applyPatch_false card0 body db.now hid
    have hq : qualifiesFor db c (.patch c body uid) = false := by
      simp [qualifiesFor, hfind, hch]
    rw [hq]
    simp
  · intro s t ty
    by_cases hok : createRefOkB db s t ty = true
    · have hst : s ≠ t := by
        unfold createRefOkB at hok
        simp only [Bool.and_eq_true] at hok
        exact bne_iff_ne.mp hok.1.1.2
      rw [createReference_eq_of_ok db s t ty hok]
      show versionOf (bumpCardVersion (withRefs db
        (db.card_references ++ [newReference db s t ty])) s) t = versionOf db t
      rw [versionOf_bump]
      rw [if_neg hst]
      rfl
    · rw [Bool.not_eq_true] at hok
      rw [createReference_db_of_not_ok db s t ty hok]
  · intro cid rid c2 hne
    cases hfr : db.card_references.find? (fun r => r.id == rid && r.source_card_id == cid) with
    | none => simp [deleteReference, hfr]
    | some r =>
      have hsrc : r.source_card_id = cid := by
        have hp2 := List.find?_some hfr
        simp only [Bool.and_eq_true, beq_iff_eq] at hp2
        exact hp2.2
      have h1 : (deleteReference db cid rid).1 =
          bumpCardVersion (withRefs db (removeFirst
            (fun x => x.id == rid && x.source_card_id == cid) db.card_references))
            r.source_card_id := by
        simp [deleteReference, hfr]
      rw [h1, hsrc, versionOf_bump, if_neg hne]
      rfl

def wMuts : List Mutation := [Mutation.addComment 1 "hello" 7, Mutation.patch 1 wBodyStatus 7]

theorem claim_C4_witness :
    versionOf (applyMutations wDb1 wMuts) 1 =
      some (wCard1.version + countQualifying wDb1 1 wMuts) :=
  (claim_C4_version_counter wDb1 1 wCard1 rfl).2.1 wMuts

/-- C5: every state reachable through the engine operations keeps the
reference graph free of self edges and duplicate (source, target, type)
triples; creating a self reference between an existing card and itself
fails InvalidArgument for every type string; a first (source, target,
type) edge succeeds, repeating it fails AlreadyExists, and the same pair
under a different valid type succeeds. -/
theorem claim_C5_reference_graph (db0 dbr db : Db) (s t a : Nat) (ty ty2 : String)
    (hinv0 : refsInvariant db0) (hreach : Reachable db0 dbr)
    (hsome : (findCard db a).isSome = true)
    (hs : (findCard db s).isSome = true) (ht : (findCard db t).isSome = true)
    (hst : s ≠ t) (hty : validReferenceTypes.contains ty = true)
    (hty2 : validReferenceTypes.contains ty2 = true) (hne : ty2 ≠ ty)
    (hdup : db.card_references.any (sameTriple s t ty) = false)
    (hdup2 : db.card_references.any (sameTriple s t ty2) = false) :
    refsInvariant dbr
    ∧ (∀ anyTy, (createReference db a a anyTy).2 = .error (.InvalidArgument "self-reference"))
    ∧ ((createReference db s t ty).2 = .ok (newReference db s t ty))
    ∧ ((createReference (createReference db s t ty).1 s t ty).2 = .error .AlreadyExists)
    ∧ (∃ r2, (createReference (createReference db s t ty).1 s t ty2).2 = .ok r2) := by
  have hok : createRefOkB db s t ty = true := by
    unfold createRefOkB
    simp [hs, ht, bne_iff_ne, hst, hty, hdup]
    simpa using hty
  have hdb1 : (createReference db s t ty).1 =
      bumpCardVersion (withRefs db (db.card_references ++ [newReference db s t ty])) s := by
    rw [createReference_eq_of_ok db s t ty hok]
  have hs1 : (findCard (bumpCardVersion (withRefs db
      (db.card_references ++ [newReference db s t ty])) s) s).isSome = true := by
    rw [findCard_isSome_bump]
    exact hs
  have ht1 : (findCard (bumpCardVersion (withRefs db
      (db.card_references ++ [newReference db s t ty])) s) t).isSome = true := by
    rw [findCard_isSome_bump]
    exact ht
  refine ⟨refsInvariant_reachable db0 dbr hinv0 hreach, ?_, ?_, ?_, ?_⟩
  · intro anyTy
    obtain ⟨ca, hca⟩ := Option.isSome_iff_exists.mp hsome
    simp [createReference, hca]
  · exact createReference_ok_res db s t ty hok
  · have hany : (bumpCardVersion (withRefs db
        (db.card_references ++ [newReference db s t ty])) s).card_references.any
          (sameTriple s t ty) = true := by
      show (db.card_references ++ [newReference db s t ty]).any (sameTriple s t ty) = true
      rw [List.any_append]
      simp [sameTriple, newReference]
    rw [hdb1]
    exact createReference_dup _ s t ty hs1 ht1 hst hty hany
  · have hok2 : createRefOkB (bumpCardVersion (withRefs db
        (db.card_references ++ [newReference db s t ty])) s) s t ty2 = true := by
      unfold createRefOkB
      have hany2 : (bumpCardVersion (withRefs db
          (db.card_references ++ [newReference db s t ty])) s).card_references.any
            (sameTriple s t ty2) = false := by
        show (db.card_references ++ [newReference db s t ty]).any (sameTriple s t ty2) = false
        rw [List.any_append]
        simp only [hdup2, Bool.false_or, List.any_cons, List.any_nil, Bool.or_false]
        simp [sameTriple, newReference, Ne.symm hne]
      simp [hs1, ht1, bne_iff_ne, hst, hany2]
      simpa using hty2
    rw [hdb1]
    exact ⟨_, createReference_ok_res _ s t ty2 hok2⟩

theorem claim_C5_witness :
    (createReference (createReference wDbR 1 2 "blocks").1 1 2 "blocks").2 =
      .error .AlreadyExists :=
  (claim_C5_reference_graph wDbR wDbR wDbR 1 2 1 "blocks" "relates_to" (by decide)
    Reachable.refl (by decide) (by decide) (by decide) (by decide) (by decide) (by decide)
    (by decide) (by decide) (by decide)).2.2.2.1

end FiveTwo
